import Mathlib

/-!
Shallow embedding of the `simplestore` resource handlers
(`client/resources/simplestore/handlers.go`) of the bisonrelay repository.

The Go handlers mutate per-user cart and order files on disk under a
store-wide lock; requests are therefore strictly serialized, and each
handler is embedded here as a pure function from an input state to a
result and an output state.  File-system state is modelled per user
(`StoreFiles`), I/O failures and external collaborators (template
renderer, on-chain address provider, LN invoice provider, exchange-rate
provider, user lookup) are modelled as oracle inputs (`StoreEnv`,
`Config`).  Monetary amounts are modelled in integer USD cents, at the
granularity the spec itself uses.
-/

namespace SimpleStore

/-- Product of the catalog: SKU, title, unit price.  The source stores the
price as a decimal dollar amount; it is modelled here by its value in
integer cents, the unit in which all totals are computed. -/
structure Product where
  sku : String
  title : String
  priceCents : Int
  deriving Repr, DecidableEq

/-- One line of a cart: a reference to a catalog product and a quantity. -/
structure CartItem where
  product : Product
  quantity : Nat
  deriving Repr, DecidableEq

/-- Per-user cart document: a sequence of items and an update timestamp
(timestamps modelled as naturals). -/
structure Cart where
  items : List CartItem
  updated : Nat
  deriving Repr, DecidableEq

/-- Order status; `StatusPlaced` is the only value produced by this core. -/
inductive OrderStatus where
  | placed
  deriving Repr, DecidableEq

/-- Payment type of an order: `PayTypeNone`, `PayTypeOnChain`, `PayTypeLN`. -/
inductive PayType where
  | none
  | onChain
  | ln
  deriving Repr, DecidableEq

/-- Order document, as persisted by `handlePlaceOrder`. -/
structure Order where
  user : String
  cart : Cart
  id : Nat
  status : OrderStatus
  placedTS : Nat
  shipChargeCents : Int
  exchangeRate : ℚ
  payType : PayType
  invoice : String
  deriving Repr, DecidableEq

/-- Reply status of the resource-fetch protocol (`ResourceStatusOk`,
`ResourceStatusNotFound`). -/
inductive ResourceStatus where
  | ok
  | notFound
  deriving Repr, DecidableEq

/-- Reply envelope `RMFetchResourceReply`: rendered data plus a status. -/
structure Reply where
  data : String
  status : ResourceStatus
  deriving Repr, DecidableEq

/-- Errors a handler can propagate (in Go, the non-nil `error` returns;
each constructor marks the return site inside the handler). -/
inductive HandlerErr where
  | readCart
  | writeCart
  | productNotExist
  | scanOrders
  | unknownUser
  | writeOrder
  | removeCart
  | render
  deriving Repr, DecidableEq

/-- Per-user file-system state owned by one store: at most one cart file
per user id under the carts area, and the list of order files (decimal id
paired with the decoded order document) under the per-user orders
directory.  Most recently written order file listed first. -/
structure StoreFiles where
  carts : String → Option Cart
  orders : String → List (Nat × Order)

/-- Oracle for the I/O operations and the template renderer used by the
handlers: each `...Err` flag tells whether the corresponding
read/write/scan/remove call fails with a (non-`ErrNotFound`) error, and
each `render...` field is the outcome of executing the corresponding
template. -/
structure StoreEnv where
  readCartErr : Bool
  writeCartErr : Bool
  scanOrdersErr : Bool
  writeOrderErr : Bool
  removeCartErr : Bool
  renderOrderPlaced : Except String String
  renderAddToCart : Except String String
  renderProduct : Except String String
  deriving Repr

/-- Store configuration and external collaborators relevant to order
placement: shipping charge (in cents), configured pay type, the
exchange-rate provider (`Option.none` when not configured, otherwise the
rate it returns), the outcome of the on-chain address provider call, LN
setup and the outcome of the LN invoice call, and whether `UserByID`
resolves the requesting user. -/
structure Config where
  shipChargeCents : Int
  payType : PayType
  exchangeRateProvider : Option ℚ
  onchainAddr : Except String String
  lnConfigured : Bool
  lnInvoice : Except String String
  userKnown : Bool
  deriving Repr

/-- SKUs of a list of cart items, in order. -/
def cartSKUs (items : List CartItem) : List String :=
  items.map (fun item => item.product.sku)

/-- The data-model invariant: at most one `CartItem` per SKU in a cart. -/
def uniqueSKUInvariant (items : List CartItem) : Prop :=
  (cartSKUs items).Nodup

instance (items : List CartItem) : Decidable (uniqueSKUInvariant items) := by
  unfold uniqueSKUInvariant
  infer_instance

/-- Embedding of the loop of `handleAddToCart` (lines 93-100): scan the
items for the first one whose product SKU matches and increment its
quantity in place (items are pointers in the source, so the increment is
visible in the cart); `Option.none` when no item matches (`hasItem`
stays false). -/
def bumpQuantity (sku : String) : List CartItem → Option (List CartItem)
  | [] => Option.none
  | item :: rest =>
    if item.product.sku = sku then
      Option.some ({ item with quantity := item.quantity + 1 } :: rest)
    else
      (bumpQuantity sku rest).map (fun tail => item :: tail)

/-- Resulting item list of `handleAddToCart` (lines 93-108): bump the
matching item if present, otherwise append a new item with quantity 1. -/
def addToCartItems (prod : Product) (items : List CartItem) : List CartItem :=
  match bumpQuantity prod.sku items with
  | Option.some bumped => bumped
  | Option.none => items ++ [⟨prod, 1⟩]

/-- Embedding of `handleAddToCart` (lines 73-130), the SKU already
extracted from the path.  Validates the SKU against the catalog, loads
the cart file (absence treated as the zero-value cart), mutates the item
list, stamps `Updated`, writes the cart back, then renders.  On a write
error the file state is unchanged; on a render error the cart has
already been written. -/
def handleAddToCart (catalog : String → Option Product) (env : StoreEnv)
    (uid sku : String) (now : Nat) (fs : StoreFiles) :
    Except HandlerErr Reply × StoreFiles :=
  match catalog sku with
  | Option.none => (Except.error HandlerErr.productNotExist, fs)
  | Option.some prod =>
    if env.readCartErr then (Except.error HandlerErr.readCart, fs)
    else
      let cart := (fs.carts uid).getD ⟨[], 0⟩
      let cart2 : Cart := ⟨addToCartItems prod cart.items, now⟩
      if env.writeCartErr then (Except.error HandlerErr.writeCart, fs)
      else
        let fs2 : StoreFiles :=
          { fs with carts := fun v => if v = uid then Option.some cart2 else fs.carts v }
        match env.renderAddToCart with
        | Except.error _ => (Except.error HandlerErr.render, fs2)
        | Except.ok dat => (Except.ok ⟨dat, ResourceStatus.ok⟩, fs2)

/-- Embedding of `handleAddToCart` including the unconditional read of
`request.Path[1]` (line 76): `Option.none` models the out-of-bounds
panic when the path has fewer than two segments. -/
def handleAddToCartReq (catalog : String → Option Product) (env : StoreEnv)
    (uid : String) (path : List String) (now : Nat) (fs : StoreFiles) :
    Option (Except HandlerErr Reply × StoreFiles) :=
  match path[1]? with
  | Option.none => Option.none
  | Option.some sku => Option.some (handleAddToCart catalog env uid sku now fs)

/-- Embedding of `handleProduct` (lines 50-71), including the
unconditional read of `request.Path[1]` (line 54): `Option.none` models
the out-of-bounds panic; an absent SKU defers to `handleNotFound`, which
is a successful reply with the not-found status. -/
def handleProduct (catalog : String → Option Product) (env : StoreEnv)
    (path : List String) : Option (Except HandlerErr Reply) :=
  match path[1]? with
  | Option.none => Option.none
  | Option.some sku =>
    match catalog sku with
    | Option.none => Option.some (Except.ok ⟨"", ResourceStatus.notFound⟩)
    | Option.some _ =>
      match env.renderProduct with
      | Except.error _ => Option.some (Except.error HandlerErr.render)
      | Except.ok dat => Option.some (Except.ok ⟨dat, ResourceStatus.ok⟩)

/-- Per-item subtotal in integer cents (line 210):
`int64(item.Quantity) * int64(item.Product.Price*100)`. -/
def totalItemUSDCents (item : CartItem) : Int :=
  (item.quantity : Int) * item.product.priceCents

/-- Modelled from the spec: the method `Cart.TotalCents` is called at
line 217 but defined outside the given source files; per the spec the
order item total is the sum of the per-item subtotals, quantity times
unit price in integer cents. -/
def Cart.TotalCents (c : Cart) : Int :=
  (c.items.map totalItemUSDCents).sum

/-- Grand total in cents computed by `handlePlaceOrder` (lines 217-225):
the item total, plus the shipping charge exactly when both the item
total and the configured shipping charge are positive. -/
def grandTotalUSDCents (cart : Cart) (shipChargeCents : Int) : Int :=
  if 0 < cart.TotalCents ∧ 0 < shipChargeCents then
    cart.TotalCents + shipChargeCents
  else
    cart.TotalCents

/-- Modelled from the spec: the method `Order.TotalDCR` is called at
line 231 but defined outside the given source files; per the spec the
secondary-currency total is derived from the grand total and the
exchange rate (cents divided by one hundred times the USD/DCR rate),
zero when no positive rate is available. -/
def Order.TotalDCR (o : Order) : ℚ :=
  if 0 < o.exchangeRate then
    ((grandTotalUSDCents o.cart o.shipChargeCents : Int) : ℚ) / (100 * o.exchangeRate)
  else 0

/-- Modelled from the spec: `orderFnamePattern.Last` (line 181) lives in
the `internal/jsonfile` package, outside the given source files; per the
spec it scans the user's order directory and returns the highest numeric
filename, zero when no order file exists. -/
def lastOrderID (orders : List (Nat × Order)) : Nat :=
  (orders.map Prod.fst).foldr max 0

/-- Embedding of the payment-resolution switch of `handlePlaceOrder`
(lines 237-277): the first three cases only log warnings; the on-chain
and LN cases set `PayType` and `Invoice` on success and only log on
failure; the default case leaves the order untouched. -/
def resolvePayment (cfg : Config) (totalDCR : ℚ) (order : Order) : Order :=
  if cfg.exchangeRateProvider.isNone then order
  else if order.exchangeRate ≤ 0 then order
  else if totalDCR = 0 then order
  else if cfg.payType = PayType.onChain then
    match cfg.onchainAddr with
    | Except.error _ => order
    | Except.ok addr => { order with payType := PayType.onChain, invoice := addr }
  else if cfg.payType = PayType.ln then
    if cfg.lnConfigured = false then order
    else
      match cfg.lnInvoice with
      | Except.error _ => order
      | Except.ok inv => { order with payType := PayType.ln, invoice := inv }
  else order

/-- The order document as persisted by `handlePlaceOrder` (lines
186-193, 227-229 and the payment switch): snapshot of the cart, next
sequence id, placed status, configured shipping charge, exchange rate
fetched from the provider when one is configured, and payment fields
filled in by the switch. -/
def placedOrder (cfg : Config) (uid : String) (now : Nat) (fs : StoreFiles)
    (cart : Cart) : Order :=
  let id := lastOrderID (fs.orders uid) + 1
  let order : Order :=
    { user := uid, cart := cart, id := id, status := OrderStatus.placed,
      placedTS := now, shipChargeCents := cfg.shipChargeCents,
      exchangeRate := 0, payType := PayType.none, invoice := "" }
  let order2 :=
    match cfg.exchangeRateProvider with
    | Option.none => order
    | Option.some rate => { order with exchangeRate := rate }
  resolvePayment cfg order2.TotalDCR order2

/-- Embedding of `handlePlaceOrder` (lines 158-306): read the cart
(absence treated as the zero-value cart); reply `"No items in order"` on
an empty cart; scan the order directory for the last id and allocate the
next one; fail if the requesting user is unknown; build the order and
resolve payment; write the order file (atomically, per the spec of
`jsonfile.Write`); remove the cart file; render the confirmation.
The `OrderPlaced` notification callback (line 280) has no effect on the
state or the result and is not modelled. -/
def handlePlaceOrder (cfg : Config) (env : StoreEnv) (uid : String)
    (now : Nat) (fs : StoreFiles) : Except HandlerErr Reply × StoreFiles :=
  if env.readCartErr then (Except.error HandlerErr.readCart, fs)
  else
    let cart := (fs.carts uid).getD ⟨[], 0⟩
    if cart.items.length = 0 then
      (Except.ok ⟨"No items in order", ResourceStatus.ok⟩, fs)
    else if env.scanOrdersErr then (Except.error HandlerErr.scanOrders, fs)
    else if cfg.userKnown = false then (Except.error HandlerErr.unknownUser, fs)
    else
      let id := lastOrderID (fs.orders uid) + 1
      let order3 := placedOrder cfg uid now fs cart
      if env.writeOrderErr then (Except.error HandlerErr.writeOrder, fs)
      else
        let fs2 : StoreFiles :=
          { fs with orders := fun v =>
              if v = uid then (id, order3) :: fs.orders v else fs.orders v }
        if env.removeCartErr then (Except.error HandlerErr.removeCart, fs2)
        else
          let fs3 : StoreFiles :=
            { fs2 with carts := fun v =>
                if v = uid then Option.none else fs2.carts v }
          match env.renderOrderPlaced with
          | Except.error _ => (Except.error HandlerErr.render, fs3)
          | Except.ok dat => (Except.ok ⟨dat, ResourceStatus.ok⟩, fs3)

/-! ### Lemmas about the cart-mutation loop -/

lemma cartSKUs_nil : cartSKUs [] = [] := rfl

lemma cartSKUs_cons (item : CartItem) (rest : List CartItem) :
    cartSKUs (item :: rest) = item.product.sku :: cartSKUs rest := rfl

lemma cartSKUs_append (l1 l2 : List CartItem) :
    cartSKUs (l1 ++ l2) = cartSKUs l1 ++ cartSKUs l2 :=
  List.map_append _ _ _

lemma bumpQuantity_eq_none (sku : String) (items : List CartItem) :
    bumpQuantity sku items = Option.none ↔ sku ∉ cartSKUs items := by
  induction items with
  | nil => simp [bumpQuantity, cartSKUs_nil]
  | cons item rest ih =>
    by_cases h : item.product.sku = sku
    · simp [bumpQuantity, h, cartSKUs_cons]
    · simp only [bumpQuantity, if_neg h, Option.map_eq_none', cartSKUs_cons,
        List.mem_cons, not_or, ih]
      constructor
      · intro hn
        exact ⟨fun e => h e.symm, hn⟩
      · intro ⟨_, hn⟩
        exact hn

lemma bumpQuantity_some_spec (sku : String) (items bumped : List CartItem)
    (h : bumpQuantity sku items = Option.some bumped) :
    ∃ pre item post, items = pre ++ item :: post ∧ item.product.sku = sku ∧
      sku ∉ cartSKUs pre ∧
      bumped = pre ++ ({ item with quantity := item.quantity + 1 } :: post) := by
  induction items generalizing bumped with
  | nil => simp [bumpQuantity] at h
  | cons it rest ih =>
    by_cases hsk : it.product.sku = sku
    · rw [bumpQuantity, if_pos hsk, Option.some.injEq] at h
      exact ⟨[], it, rest, by simp, hsk, by simp [cartSKUs_nil], h.symm⟩
    · rw [bumpQuantity, if_neg hsk] at h
      rw [Option.map_eq_some'] at h
      obtain ⟨tail, htail, hcons⟩ := h
      obtain ⟨pre, item, post, h1, h2, h3, h4⟩ := ih tail htail
      refine ⟨it :: pre, item, post, by simp [h1], h2, ?_, by simp [← hcons, h4]⟩
      rw [cartSKUs_cons]
      simp only [List.mem_cons, not_or]
      exact ⟨fun e => hsk e.symm, h3⟩

lemma cartSKUs_bumpQuantity (sku : String) (items bumped : List CartItem)
    (h : bumpQuantity sku items = Option.some bumped) :
    cartSKUs bumped = cartSKUs items := by
  obtain ⟨pre, item, post, h1, _, _, h4⟩ := bumpQuantity_some_spec sku items bumped h
  subst h1 h4
  simp [cartSKUs_append, cartSKUs_cons]

lemma uniqueSKU_addToCartItems (prod : Product) (items : List CartItem)
    (h : uniqueSKUInvariant items) : uniqueSKUInvariant (addToCartItems prod items) := by
  unfold uniqueSKUInvariant at *
  unfold addToCartItems
  cases hb : bumpQuantity prod.sku items with
  | some bumped => rw [cartSKUs_bumpQuantity prod.sku items bumped hb]; exact h
  | none =>
    rw [bumpQuantity_eq_none] at hb
    rw [cartSKUs_append, cartSKUs_cons, cartSKUs_nil]
    rw [List.nodup_append]
    exact ⟨h, List.nodup_singleton _, by simpa using hb⟩

lemma addToCartItems_not_mem (prod : Product) (items : List CartItem)
    (h : prod.sku ∉ cartSKUs items) :
    addToCartItems prod items = items ++ [⟨prod, 1⟩] := by
  unfold addToCartItems
  rw [(bumpQuantity_eq_none prod.sku items).mpr h]

lemma addToCartItems_mem (prod : Product) (items : List CartItem)
    (h : prod.sku ∈ cartSKUs items) :
    ∃ pre item post, items = pre ++ item :: post ∧ item.product.sku = prod.sku ∧
      prod.sku ∉ cartSKUs pre ∧
      addToCartItems prod items =
        pre ++ ({ item with quantity := item.quantity + 1 } :: post) := by
  unfold addToCartItems
  cases hb : bumpQuantity prod.sku items with
  | none =>
    rw [bumpQuantity_eq_none] at hb
    exact absurd h hb
  | some bumped =>
    obtain ⟨pre, item, post, h1, h2, h3, h4⟩ :=
      bumpQuantity_some_spec prod.sku items bumped hb
    exact ⟨pre, item, post, h1, h2, h3, h4⟩

lemma handleAddToCart_state (catalog : String → Option Product) (env : StoreEnv)
    (uid sku : String) (prod : Product) (now : Nat) (fs : StoreFiles)
    (hcat : catalog sku = Option.some prod) (hread : env.readCartErr = false)
    (hwrite : env.writeCartErr = false) :
    (handleAddToCart catalog env uid sku now fs).2 =
      { fs with carts := fun v =>
          if v = uid then
            Option.some ⟨addToCartItems prod ((fs.carts uid).getD ⟨[], 0⟩).items, now⟩
          else fs.carts v } := by
  unfold handleAddToCart
  rw [hcat]
  simp only [hread, hwrite, Bool.false_eq_true, if_false]
  cases env.renderAddToCart <;> rfl

lemma handleAddToCart_invariant (catalog : String → Option Product) (env : StoreEnv)
    (uid sku : String) (now : Nat) (fs : StoreFiles)
    (h : uniqueSKUInvariant ((fs.carts uid).getD ⟨[], 0⟩).items) :
    uniqueSKUInvariant
      ((((handleAddToCart catalog env uid sku now fs).2).carts uid).getD ⟨[], 0⟩).items := by
  cases hcat : catalog sku with
  | none =>
    unfold handleAddToCart
    rw [hcat]
    exact h
  | some prod =>
    cases hread : env.readCartErr with
    | true =>
      unfold handleAddToCart
      rw [hcat]
      simp only [hread, if_true]
      exact h
    | false =>
      cases hwrite : env.writeCartErr with
      | true =>
        unfold handleAddToCart
        rw [hcat]
        simp only [hread, hwrite, Bool.false_eq_true, if_false, if_true]
        exact h
      | false =>
        rw [handleAddToCart_state catalog env uid sku prod now fs hcat hread hwrite]
        simp only [if_pos rfl, Option.getD_some]
        exact uniqueSKU_addToCartItems prod _ h

/-- C1: for every SKU in the catalog, adding it twice to an (absent, hence
empty) cart yields exactly one cart item with quantity 2; every
`handleAddToCart` call preserves the at-most-one-item-per-SKU invariant of
the persisted cart, incrementing the matching item's quantity by 1 when the
SKU is already present and appending a fresh item with quantity 1
otherwise. -/
theorem handleAddToCart_unique_sku
    (catalog : String → Option Product) (env : StoreEnv) (uid sku : String)
    (prod : Product) (hcat : catalog sku = Option.some prod) (hsku : prod.sku = sku)
    (now1 now2 : Nat) (fs : StoreFiles) (hcart : fs.carts uid = Option.none)
    (hread : env.readCartErr = false) (hwrite : env.writeCartErr = false) :
    (((handleAddToCart catalog env uid sku now2
        (handleAddToCart catalog env uid sku now1 fs).2).2).carts uid =
      Option.some ⟨[⟨prod, 2⟩], now2⟩) ∧
    (∀ (cat2 : String → Option Product) (env2 : StoreEnv) (uid2 sku2 : String)
        (now : Nat) (fs2 : StoreFiles),
      uniqueSKUInvariant ((fs2.carts uid2).getD ⟨[], 0⟩).items →
      uniqueSKUInvariant
        ((((handleAddToCart cat2 env2 uid2 sku2 now fs2).2).carts uid2).getD
          ⟨[], 0⟩).items) ∧
    (∀ (prod2 : Product) (items : List CartItem),
      (prod2.sku ∈ cartSKUs items →
        ∃ pre item post, items = pre ++ item :: post ∧
          item.product.sku = prod2.sku ∧ prod2.sku ∉ cartSKUs pre ∧
          addToCartItems prod2 items =
            pre ++ ({ item with quantity := item.quantity + 1 } :: post)) ∧
      (prod2.sku ∉ cartSKUs items →
        addToCartItems prod2 items = items ++ [⟨prod2, 1⟩])) := by
  refine ⟨?_, ?_, ?_⟩
  · rw [handleAddToCart_state catalog env uid sku prod now2 _ hcat hread hwrite,
      handleAddToCart_state catalog env uid sku prod now1 fs hcat hread hwrite]
    have h1 : addToCartItems prod ([] : List CartItem) = [⟨prod, 1⟩] := by
      rw [addToCartItems_not_mem prod _ (by simp [cartSKUs_nil])]
      rfl
    have h2 : addToCartItems prod [⟨prod, 1⟩] = [⟨prod, 2⟩] := by
      unfold addToCartItems bumpQuantity
      simp
    simp [hcart, h1, h2]
  · intro cat2 env2 uid2 sku2 now fs2 h
    exact handleAddToCart_invariant cat2 env2 uid2 sku2 now fs2 h
  · intro prod2 items
    exact ⟨addToCartItems_mem prod2 items, addToCartItems_not_mem prod2 items⟩

/-! ### Concrete fixtures used by the witnesses -/

def prodA1 : Product := ⟨"A1", "Widget", 999⟩

def catalogW : String → Option Product :=
  fun s => if s = "A1" then Option.some prodA1 else Option.none

def envOK : StoreEnv :=
  ⟨false, false, false, false, false, Except.ok "rendered", Except.ok "added",
    Except.ok "page"⟩

def fsEmpty : StoreFiles := ⟨fun _ => Option.none, fun _ => []⟩

theorem handleAddToCart_unique_sku_witness :
    catalogW "A1" = Option.some prodA1 ∧
    ((handleAddToCart catalogW envOK "alice" "A1" 2
        (handleAddToCart catalogW envOK "alice" "A1" 1 fsEmpty).2).2).carts "alice" =
      Option.some ⟨[⟨prodA1, 2⟩], 2⟩ :=
  ⟨by decide,
    (handleAddToCart_unique_sku catalogW envOK "alice" "A1" prodA1 (by decide) rfl
      1 2 fsEmpty rfl rfl rfl).1⟩

/-! ### Lemmas about order placement -/

lemma resolvePayment_preserves (cfg : Config) (d : ℚ) (o : Order) :
    (resolvePayment cfg d o).user = o.user ∧
    (resolvePayment cfg d o).cart = o.cart ∧
    (resolvePayment cfg d o).id = o.id ∧
    (resolvePayment cfg d o).status = o.status ∧
    (resolvePayment cfg d o).placedTS = o.placedTS ∧
    (resolvePayment cfg d o).shipChargeCents = o.shipChargeCents ∧
    (resolvePayment cfg d o).exchangeRate = o.exchangeRate := by
  unfold resolvePayment
  repeat' split
  all_goals simp

lemma placedOrder_id (cfg : Config) (uid : String) (now : Nat) (fs : StoreFiles)
    (cart : Cart) :
    (placedOrder cfg uid now fs cart).id = lastOrderID (fs.orders uid) + 1 := by
  unfold placedOrder
  rw [(resolvePayment_preserves _ _ _).2.2.1]
  cases cfg.exchangeRateProvider <;> rfl

lemma placedOrder_cart (cfg : Config) (uid : String) (now : Nat) (fs : StoreFiles)
    (cart : Cart) : (placedOrder cfg uid now fs cart).cart = cart := by
  unfold placedOrder
  rw [(resolvePayment_preserves _ _ _).2.1]
  cases cfg.exchangeRateProvider <;> rfl

lemma lastOrderID_nil : lastOrderID [] = 0 := rfl

lemma lastOrderID_cons (k : Nat) (o : Order) (l : List (Nat × Order)) :
    lastOrderID ((k, o) :: l) = max k (lastOrderID l) := rfl

lemma le_lastOrderID (l : List (Nat × Order)) :
    ∀ p ∈ l, p.1 ≤ lastOrderID l := by
  induction l with
  | nil => intro p hp; cases hp
  | cons q rest ih =>
    intro p hp
    rcases List.mem_cons.mp hp with h | h
    · subst h
      cases p with
      | mk k o =>
        rw [lastOrderID_cons]
        exact le_max_left _ _
    · cases q with
      | mk k o =>
        rw [lastOrderID_cons]
        exact le_trans (ih p h) (le_max_right _ _)

lemma handlePlaceOrder_commit (cfg : Config) (env : StoreEnv) (uid : String)
    (now : Nat) (fs : StoreFiles) (c : Cart)
    (hread : env.readCartErr = false) (hcart : fs.carts uid = Option.some c)
    (hne : c.items ≠ []) (hscan : env.scanOrdersErr = false)
    (huser : cfg.userKnown = true) (hwrite : env.writeOrderErr = false)
    (hrem : env.removeCartErr = false) :
    handlePlaceOrder cfg env uid now fs =
      ((match env.renderOrderPlaced with
        | Except.error _ => Except.error HandlerErr.render
        | Except.ok dat => Except.ok ⟨dat, ResourceStatus.ok⟩),
       { carts := fun v => if v = uid then Option.none else fs.carts v,
         orders := fun v =>
           if v = uid then
             (lastOrderID (fs.orders uid) + 1, placedOrder cfg uid now fs c) :: fs.orders v
           else fs.orders v }) := by
  unfold handlePlaceOrder
  rw [hcart]
  simp only [hread, hscan, huser, hwrite, hrem, Option.getD_some,
    Bool.false_eq_true, if_false, List.length_eq_zero, hne, Bool.true_eq_false]
  cases env.renderOrderPlaced <;> rfl

/-- C3: for a user whose cart file is absent or holds zero items,
`handlePlaceOrder` returns a successful reply whose data is the literal
`"No items in order"`, returns no error, and leaves the whole file state
(cart and order files) unchanged. -/
theorem handlePlaceOrder_empty_cart (cfg : Config) (env : StoreEnv) (uid : String)
    (now : Nat) (fs : StoreFiles) (hread : env.readCartErr = false)
    (hempty : fs.carts uid = Option.none ∨
      ∃ c, fs.carts uid = Option.some c ∧ c.items = []) :
    handlePlaceOrder cfg env uid now fs =
      (Except.ok ⟨"No items in order", ResourceStatus.ok⟩, fs) := by
  unfold handlePlaceOrder
  simp only [hread, Bool.false_eq_true, if_false]
  rcases hempty with h | ⟨c, h, hc⟩
  · rw [h]
    rfl
  · rw [h]
    simp [hc]

/-- C10: when the requesting user id cannot be resolved (`UserByID`
fails), `handlePlaceOrder` returns an error even for a non-empty cart,
with the whole file state unchanged: no order file written, cart file
untouched. -/
theorem handlePlaceOrder_unknown_user (cfg : Config) (env : StoreEnv)
    (uid : String) (now : Nat) (fs : StoreFiles) (c : Cart)
    (hread : env.readCartErr = false) (hcart : fs.carts uid = Option.some c)
    (hne : c.items ≠ []) (hscan : env.scanOrdersErr = false)
    (huser : cfg.userKnown = false) :
    handlePlaceOrder cfg env uid now fs =
      (Except.error HandlerErr.unknownUser, fs) := by
  unfold handlePlaceOrder
  rw [hcart]
  simp [hread, hscan, huser, List.length_eq_zero, hne]

/-- C7: an I/O failure while reading the cart, scanning the order
directory, writing the order file, or removing the cart file makes
`handlePlaceOrder` return an error with no reply; in the first three
cases the file state is completely unchanged, and in the remove-cart case
the only change is the one complete order file written atomically (the
cart file is still present), so no partial order file is ever left. -/
theorem handlePlaceOrder_io_failures (cfg : Config) (uid : String) (now : Nat)
    (fs : StoreFiles) (c : Cart) (hcart : fs.carts uid = Option.some c)
    (hne : c.items ≠ []) (huser : cfg.userKnown = true) :
    (∀ env : StoreEnv, env.readCartErr = true →
      handlePlaceOrder cfg env uid now fs =
        (Except.error HandlerErr.readCart, fs)) ∧
    (∀ env : StoreEnv, env.readCartErr = false → env.scanOrdersErr = true →
      handlePlaceOrder cfg env uid now fs =
        (Except.error HandlerErr.scanOrders, fs)) ∧
    (∀ env : StoreEnv, env.readCartErr = false → env.scanOrdersErr = false →
      env.writeOrderErr = true →
      handlePlaceOrder cfg env uid now fs =
        (Except.error HandlerErr.writeOrder, fs)) ∧
    (∀ env : StoreEnv, env.readCartErr = false → env.scanOrdersErr = false →
      env.writeOrderErr = false → env.removeCartErr = true →
      (handlePlaceOrder cfg env uid now fs).1 =
        Except.error HandlerErr.removeCart ∧
      ((handlePlaceOrder cfg env uid now fs).2).carts uid = Option.some c ∧
      ((handlePlaceOrder cfg env uid now fs).2).orders uid =
        (lastOrderID (fs.orders uid) + 1, placedOrder cfg uid now fs c) ::
          fs.orders uid) := by
  refine ⟨?_, ?_, ?_, ?_⟩
  · intro env h
    unfold handlePlaceOrder
    rw [h]
    rfl
  · intro env h1 h2
    unfold handlePlaceOrder
    rw [hcart]
    simp [h1, h2, List.length_eq_zero, hne]
  · intro env h1 h2 h3
    unfold handlePlaceOrder
    rw [hcart]
    simp [h1, h2, h3, huser, List.length_eq_zero, hne]
  · intro env h1 h2 h3 h4
    unfold handlePlaceOrder
    rw [hcart]
    simp [h1, h2, h3, h4, huser, List.length_eq_zero, hne, hcart]

/-- C5: a successful `handlePlaceOrder` on a non-empty cart deletes that
user's cart file, creates exactly one new order file keyed by the next
sequence number, and touches no other user's cart or order documents. -/
theorem handlePlaceOrder_success_files (cfg : Config) (env : StoreEnv)
    (uid : String) (now : Nat) (fs : StoreFiles) (c : Cart) (dat : String)
    (hread : env.readCartErr = false) (hcart : fs.carts uid = Option.some c)
    (hne : c.items ≠ []) (hscan : env.scanOrdersErr = false)
    (huser : cfg.userKnown = true) (hwrite : env.writeOrderErr = false)
    (hrem : env.removeCartErr = false)
    (hrender : env.renderOrderPlaced = Except.ok dat) :
    (handlePlaceOrder cfg env uid now fs).1 =
      Except.ok ⟨dat, ResourceStatus.ok⟩ ∧
    ((handlePlaceOrder cfg env uid now fs).2).carts uid = Option.none ∧
    ((handlePlaceOrder cfg env uid now fs).2).orders uid =
      (lastOrderID (fs.orders uid) + 1, placedOrder cfg uid now fs c) ::
        fs.orders uid ∧
    (∀ v, v ≠ uid →
      ((handlePlaceOrder cfg env uid now fs).2).carts v = fs.carts v ∧
      ((handlePlaceOrder cfg env uid now fs).2).orders v = fs.orders v) := by
  rw [handlePlaceOrder_commit cfg env uid now fs c hread hcart hne hscan huser
    hwrite hrem]
  rw [hrender]
  refine ⟨rfl, by simp, by simp, ?_⟩
  intro v hv
  simp [hv]

/-- C2: the order id allocated by `handlePlaceOrder` is one plus the
highest numeric order filename in the user's order directory (1 when no
prior orders exist); a successful placement appends exactly that file,
the new id is strictly greater than every pre-existing id, and the
highest id afterwards equals the new id, so successive successful
placements for one user produce 1, 2, 3, ... with no gaps or
duplicates. -/
theorem handlePlaceOrder_next_id (cfg : Config) (env : StoreEnv)
    (uid : String) (now : Nat) (fs : StoreFiles) (c : Cart) (dat : String)
    (hread : env.readCartErr = false) (hcart : fs.carts uid = Option.some c)
    (hne : c.items ≠ []) (hscan : env.scanOrdersErr = false)
    (huser : cfg.userKnown = true) (hwrite : env.writeOrderErr = false)
    (hrem : env.removeCartErr = false)
    (hrender : env.renderOrderPlaced = Except.ok dat) :
    ((handlePlaceOrder cfg env uid now fs).2).orders uid =
      (lastOrderID (fs.orders uid) + 1, placedOrder cfg uid now fs c) ::
        fs.orders uid ∧
    (placedOrder cfg uid now fs c).id = lastOrderID (fs.orders uid) + 1 ∧
    (fs.orders uid = [] → lastOrderID (fs.orders uid) + 1 = 1) ∧
    (∀ p ∈ fs.orders uid, p.1 < lastOrderID (fs.orders uid) + 1) ∧
    lastOrderID (((handlePlaceOrder cfg env uid now fs).2).orders uid) =
      lastOrderID (fs.orders uid) + 1 := by
  have hcommit := handlePlaceOrder_commit cfg env uid now fs c hread hcart hne
    hscan huser hwrite hrem
  refine ⟨?_, placedOrder_id cfg uid now fs c, ?_, ?_, ?_⟩
  · rw [hcommit]
    simp
  · intro h
    rw [h, lastOrderID_nil]
  · intro p hp
    exact Nat.lt_succ_of_le (le_lastOrderID (fs.orders uid) p hp)
  · rw [hcommit]
    simp only [if_pos rfl, lastOrderID_cons]
    exact Nat.max_eq_left (Nat.le_succ _)

/-- C8: when everything up to persistence succeeds but the final
confirmation-template rendering fails, `handlePlaceOrder` returns an
error with no reply while the order file is already persisted and the
user's cart file already deleted. -/
theorem handlePlaceOrder_render_failure (cfg : Config) (env : StoreEnv)
    (uid : String) (now : Nat) (fs : StoreFiles) (c : Cart) (emsg : String)
    (hread : env.readCartErr = false) (hcart : fs.carts uid = Option.some c)
    (hne : c.items ≠ []) (hscan : env.scanOrdersErr = false)
    (huser : cfg.userKnown = true) (hwrite : env.writeOrderErr = false)
    (hrem : env.removeCartErr = false)
    (hrender : env.renderOrderPlaced = Except.error emsg) :
    (handlePlaceOrder cfg env uid now fs).1 = Except.error HandlerErr.render ∧
    ((handlePlaceOrder cfg env uid now fs).2).carts uid = Option.none ∧
    ((handlePlaceOrder cfg env uid now fs).2).orders uid =
      (lastOrderID (fs.orders uid) + 1, placedOrder cfg uid now fs c) ::
        fs.orders uid := by
  rw [handlePlaceOrder_commit cfg env uid now fs c hread hcart hne hscan huser
    hwrite hrem]
  rw [hrender]
  exact ⟨rfl, by simp, by simp⟩

lemma grandTotal_pos (c : Cart) (ship : Int) (htot : 0 < c.TotalCents)
    (hship : 0 ≤ ship) : 0 < grandTotalUSDCents c ship := by
  unfold grandTotalUSDCents
  split
  · next h => linarith [h.2]
  · exact htot

lemma Order_TotalDCR_pos (o : Order) (hr : 0 < o.exchangeRate)
    (hg : 0 < grandTotalUSDCents o.cart o.shipChargeCents) : 0 < o.TotalDCR := by
  unfold Order.TotalDCR
  rw [if_pos hr]
  apply div_pos
  · exact_mod_cast hg
  · have := mul_pos (show (0:ℚ) < 100 by norm_num) hr
    exact this

lemma resolvePayment_onchain_err (cfg : Config) (d : ℚ) (o : Order)
    (emsg : String) (hd : d ≠ 0) (hrate : 0 < o.exchangeRate)
    (hprov : cfg.exchangeRateProvider.isNone = false)
    (hpt : cfg.payType = PayType.onChain)
    (haddr : cfg.onchainAddr = Except.error emsg) :
    resolvePayment cfg d o = o := by
  unfold resolvePayment
  rw [hprov, hpt, haddr]
  simp [not_le.mpr hrate, hd]

/-- The order value right before the payment switch, when an
exchange-rate provider returning `r` is configured. -/
def orderWithRate (cfg : Config) (uid : String) (now : Nat) (fs : StoreFiles)
    (c : Cart) (r : ℚ) : Order :=
  { user := uid, cart := c, id := lastOrderID (fs.orders uid) + 1,
    status := OrderStatus.placed, placedTS := now,
    shipChargeCents := cfg.shipChargeCents, exchangeRate := r,
    payType := PayType.none, invoice := "" }

lemma placedOrder_some_rate (cfg : Config) (uid : String) (now : Nat)
    (fs : StoreFiles) (c : Cart) (r : ℚ)
    (hprov : cfg.exchangeRateProvider = Option.some r) :
    placedOrder cfg uid now fs c =
      resolvePayment cfg (orderWithRate cfg uid now fs c r).TotalDCR
        (orderWithRate cfg uid now fs c r) := by
  unfold placedOrder
  rw [hprov]
  rfl

lemma placedOrder_onchain_err (cfg : Config) (uid : String) (now : Nat)
    (fs : StoreFiles) (c : Cart) (r : ℚ) (emsg : String)
    (hprov : cfg.exchangeRateProvider = Option.some r) (hr : 0 < r)
    (htot : 0 < c.TotalCents) (hship : 0 ≤ cfg.shipChargeCents)
    (hpt : cfg.payType = PayType.onChain)
    (haddr : cfg.onchainAddr = Except.error emsg) :
    (placedOrder cfg uid now fs c).payType = PayType.none ∧
    (placedOrder cfg uid now fs c).invoice = "" := by
  rw [placedOrder_some_rate cfg uid now fs c r hprov]
  have hrate : 0 < (orderWithRate cfg uid now fs c r).exchangeRate := hr
  have hg : 0 < grandTotalUSDCents c cfg.shipChargeCents :=
    grandTotal_pos c cfg.shipChargeCents htot hship
  have hd : (orderWithRate cfg uid now fs c r).TotalDCR ≠ 0 :=
    ne_of_gt (Order_TotalDCR_pos _ hrate hg)
  rw [resolvePayment_onchain_err cfg _ _ emsg hd hrate (by rw [hprov]; rfl)
    hpt haddr]
  exact ⟨rfl, rfl⟩

/-- C6: with pay type OnChain, a configured exchange-rate provider
returning a positive rate, a positive item total, and a failing on-chain
address provider, `handlePlaceOrder` still persists the order — with
`PayType = None` and an empty `Invoice` — and returns a successful reply
rather than the provider's error. -/
theorem handlePlaceOrder_onchain_provider_failure (cfg : Config)
    (env : StoreEnv) (uid : String) (now : Nat) (fs : StoreFiles) (c : Cart)
    (dat emsg : String) (r : ℚ)
    (hread : env.readCartErr = false) (hcart : fs.carts uid = Option.some c)
    (hne : c.items ≠ []) (hscan : env.scanOrdersErr = false)
    (huser : cfg.userKnown = true)
    (hprov : cfg.exchangeRateProvider = Option.some r) (hr : 0 < r)
    (htot : 0 < c.TotalCents) (hship : 0 ≤ cfg.shipChargeCents)
    (hpt : cfg.payType = PayType.onChain)
    (haddr : cfg.onchainAddr = Except.error emsg)
    (hwrite : env.writeOrderErr = false) (hrem : env.removeCartErr = false)
    (hrender : env.renderOrderPlaced = Except.ok dat) :
    (handlePlaceOrder cfg env uid now fs).1 =
      Except.ok ⟨dat, ResourceStatus.ok⟩ ∧
    ((handlePlaceOrder cfg env uid now fs).2).orders uid =
      (lastOrderID (fs.orders uid) + 1, placedOrder cfg uid now fs c) ::
        fs.orders uid ∧
    (placedOrder cfg uid now fs c).payType = PayType.none ∧
    (placedOrder cfg uid now fs c).invoice = "" := by
  have hpo := placedOrder_onchain_err cfg uid now fs c r emsg hprov hr htot
    hship hpt haddr
  rw [handlePlaceOrder_commit cfg env uid now fs c hread hcart hne hscan huser
    hwrite hrem]
  rw [hrender]
  exact ⟨rfl, by simp, hpo.1, hpo.2⟩

/-- C4: for every non-empty cart the grand total computed during
`handlePlaceOrder` equals the sum over items of quantity times unit
price in cents, plus the shipping charge in cents exactly when both the
item total and the configured shipping charge are positive; each
per-item subtotal is the integer product of quantity and unit cents. -/
theorem handlePlaceOrder_grand_total (cart : Cart) (shipCents : Int)
    (hne : cart.items ≠ []) :
    grandTotalUSDCents cart shipCents =
      (cart.items.map totalItemUSDCents).sum +
        (if 0 < (cart.items.map totalItemUSDCents).sum ∧ 0 < shipCents then
          shipCents
        else 0) ∧
    (∀ item ∈ cart.items,
      totalItemUSDCents item = (item.quantity : Int) * item.product.priceCents) := by
  constructor
  · unfold grandTotalUSDCents Cart.TotalCents
    split
    · rfl
    · rw [add_zero]
  · intro item _
    rfl

/-- C9: `handleAddToCart` and `handleProduct` read the second path
segment unconditionally, so each is total exactly when the request path
has at least two segments; under that precondition no out-of-bounds
access occurs in either handler. -/
theorem handlers_path_segment_bounds (catalog : String → Option Product)
    (env : StoreEnv) (uid : String) (now : Nat) (fs : StoreFiles)
    (path : List String) :
    ((handleAddToCartReq catalog env uid path now fs).isSome ↔
      2 ≤ path.length) ∧
    ((handleProduct catalog env path).isSome ↔ 2 ≤ path.length) := by
  have hidx : (path[1]?).isSome ↔ 2 ≤ path.length := by
    simp only [Option.isSome_iff_exists, List.getElem?_eq_some_iff]
    constructor
    · rintro ⟨a, h, _⟩
      exact h
    · intro h
      exact ⟨path.get ⟨1, h⟩, h, rfl⟩
  have hA : (handleAddToCartReq catalog env uid path now fs).isSome =
      (path[1]?).isSome := by
    unfold handleAddToCartReq
    cases path[1]? <;> rfl
  have hP : (handleProduct catalog env path).isSome = (path[1]?).isSome := by
    unfold handleProduct
    cases path[1]? with
    | none => rfl
    | some sku =>
      cases hc : catalog sku with
      | none => simp [hc]
      | some p =>
        cases hr2 : env.renderProduct with
        | error e => simp [hc, hr2]
        | ok dat => simp [hc, hr2]
  rw [hA, hP]
  exact ⟨hidx, hidx⟩

/-! ### Further concrete fixtures and the witnesses -/

def cartW : Cart := ⟨[⟨prodA1, 2⟩], 5⟩

def fsCart : StoreFiles :=
  ⟨fun u => if u = "alice" then Option.some cartW else Option.none, fun _ => []⟩

def cfgW : Config :=
  ⟨0, PayType.onChain, Option.some 20, Except.ok "addr1", false,
    Except.ok "inv", true⟩

def cfgOnchainErr : Config := { cfgW with onchainAddr := Except.error "rpc down" }

def cfgNoUser : Config := { cfgW with userKnown := false }

def envReadErr : StoreEnv := { envOK with readCartErr := true }

def envRenderErr : StoreEnv :=
  { envOK with renderOrderPlaced := Except.error "tmpl" }

theorem handlePlaceOrder_empty_cart_witness :
    handlePlaceOrder cfgW envOK "bob" 7 fsCart =
      (Except.ok ⟨"No items in order", ResourceStatus.ok⟩, fsCart) :=
  handlePlaceOrder_empty_cart cfgW envOK "bob" 7 fsCart rfl (Or.inl (by decide))

theorem handlePlaceOrder_unknown_user_witness :
    handlePlaceOrder cfgNoUser envOK "alice" 7 fsCart =
      (Except.error HandlerErr.unknownUser, fsCart) :=
  handlePlaceOrder_unknown_user cfgNoUser envOK "alice" 7 fsCart cartW rfl
    (by decide) (by decide) rfl rfl

theorem handlePlaceOrder_io_failures_witness :
    handlePlaceOrder cfgW envReadErr "alice" 7 fsCart =
      (Except.error HandlerErr.readCart, fsCart) :=
  (handlePlaceOrder_io_failures cfgW "alice" 7 fsCart cartW (by decide)
    (by decide) rfl).1 envReadErr rfl

theorem handlePlaceOrder_success_files_witness :
    (handlePlaceOrder cfgW envOK "alice" 7 fsCart).1 =
      Except.ok ⟨"rendered", ResourceStatus.ok⟩ ∧
    ((handlePlaceOrder cfgW envOK "alice" 7 fsCart).2).carts "alice" =
      Option.none ∧
    ((handlePlaceOrder cfgW envOK "alice" 7 fsCart).2).orders "alice" =
      (1, placedOrder cfgW "alice" 7 fsCart cartW) :: [] := by
  obtain ⟨h1, h2, h3, h4⟩ := handlePlaceOrder_success_files cfgW envOK "alice" 7
    fsCart cartW "rendered" rfl (by decide) (by decide) rfl rfl rfl rfl rfl
  exact ⟨h1, h2, h3⟩

theorem handlePlaceOrder_next_id_witness :
    ((handlePlaceOrder cfgW envOK "alice" 7 fsCart).2).orders "alice" =
      (1, placedOrder cfgW "alice" 7 fsCart cartW) :: [] ∧
    (placedOrder cfgW "alice" 7 fsCart cartW).id = 1 ∧
    lastOrderID
        (((handlePlaceOrder cfgW envOK "alice" 7 fsCart).2).orders "alice") =
      1 := by
  obtain ⟨h1, h2, h3, h4, h5⟩ := handlePlaceOrder_next_id cfgW envOK "alice" 7
    fsCart cartW "rendered" rfl (by decide) (by decide) rfl rfl rfl rfl rfl
  exact ⟨h1, h2, h5⟩

theorem handlePlaceOrder_render_failure_witness :
    (handlePlaceOrder cfgW envRenderErr "alice" 7 fsCart).1 =
      Except.error HandlerErr.render ∧
    ((handlePlaceOrder cfgW envRenderErr "alice" 7 fsCart).2).carts "alice" =
      Option.none := by
  obtain ⟨h1, h2, h3⟩ := handlePlaceOrder_render_failure cfgW envRenderErr
    "alice" 7 fsCart cartW "tmpl" rfl (by decide) (by decide) rfl rfl rfl rfl rfl
  exact ⟨h1, h2⟩

theorem handlePlaceOrder_onchain_provider_failure_witness :
    (handlePlaceOrder cfgOnchainErr envOK "alice" 7 fsCart).1 =
      Except.ok ⟨"rendered", ResourceStatus.ok⟩ ∧
    (placedOrder cfgOnchainErr "alice" 7 fsCart cartW).payType = PayType.none ∧
    (placedOrder cfgOnchainErr "alice" 7 fsCart cartW).invoice = "" := by
  obtain ⟨h1, h2, h3, h4⟩ := handlePlaceOrder_onchain_provider_failure
    cfgOnchainErr envOK "alice" 7 fsCart cartW "rendered" "rpc down" 20 rfl
    (by decide) (by decide) rfl rfl rfl (by norm_num) (by decide) (by decide)
    rfl rfl rfl rfl rfl
  exact ⟨h1, h3, h4⟩

theorem handlePlaceOrder_grand_total_witness :
    cartW.items ≠ [] ∧
    grandTotalUSDCents cartW 0 =
      (cartW.items.map totalItemUSDCents).sum +
        (if 0 < (cartW.items.map totalItemUSDCents).sum ∧ 0 < (0 : Int) then
          (0 : Int)
        else 0) :=
  ⟨by decide, (handlePlaceOrder_grand_total cartW 0 (by decide)).1⟩

end SimpleStore
